import Mathlib

set_option maxRecDepth 4000

/-!
Shallow embedding of the Washington Commanders Hub client data pipeline:
the generic fetch-cache-render engine `fetchDataAndDisplay` and the
response normalizers `processPodcasts`, `processTeamEventsData` and
`processStandingsData`.  JavaScript strings are Lean `String`s; nullable
or possibly-absent fields are `Option`s; JavaScript truthiness of strings
is `jsTruthyStr`; a raised TypeError is an explicit outcome constructor.
-/

namespace CommandersHub

/-- JavaScript truthiness for a possibly-null string value: null and the
empty string are falsy, every other string is truthy. -/
def jsTruthyStr : Option String → Bool
  | none => false
  | some s => s ≠ ""

/-- JavaScript `x || d` for a possibly-null string `x` with a string
default `d`: the value itself when truthy, otherwise the default. -/
def orDefault (v : Option String) (d : String) : String :=
  match v with
  | none => d
  | some s => if s = "" then d else s

/-- The set of characters trimmed by the JavaScript `String.prototype.trim`:
ASCII whitespace, NBSP, BOM and the Unicode space separators. -/
def isJsWhitespace (c : Char) : Bool :=
  c = ' ' || c = '\t' || c = '\n' || c = '\r' ||
  c = Char.ofNat 11 || c = Char.ofNat 12 || c = Char.ofNat 0xA0 ||
  c = Char.ofNat 0x1680 || (0x2000 ≤ c.toNat && c.toNat ≤ 0x200A) ||
  c = Char.ofNat 0x2028 || c = Char.ofNat 0x2029 || c = Char.ofNat 0x202F ||
  c = Char.ofNat 0x205F || c = Char.ofNat 0x3000 || c = Char.ofNat 0xFEFF

/-- JavaScript `s.trim()`: drop leading and trailing whitespace. -/
def jsTrim (s : String) : String :=
  String.mk (((s.data.dropWhile isJsWhitespace).reverse.dropWhile isJsWhitespace).reverse)

/-- Outcome of calling a `processDataFunction`: a returned value (an HTML
string or null) or a raised exception. -/
inductive TransformOutcome where
  | value (v : Option String)
  | raise
deriving DecidableEq, Repr

/-- Behaviour of the network for one engine run, as observed by
`fetchDataAndDisplay`: the four classified failure points of the
fetch sequence, or a parsed JSON body of type `D`. -/
inductive NetworkOutcome (D : Type) where
  | netError
  | httpError (status : Nat) (statusText : String)
  | badContentType
  | jsonParseError
  | ok (body : D)
deriving DecidableEq, Repr

/-- Observable result of one run of `fetchDataAndDisplay` over a section
whose loader, error element and `.data-content` area all exist (the
DOMContentLoaded handler creates all three): the final innerHTML of the
content area, the cache entry for the cacheKey after the run, the
error text if the error element was shown, whether the loader ends
hidden, and whether a network fetch was issued. -/
structure EngineResult where
  content : String
  cache : Option String
  errorShown : Option String
  loaderHidden : Bool
  fetched : Bool
deriving DecidableEq, Repr

/-- State at exit through the `showError` path of `fetchDataAndDisplay`:
the error element shows the sanitized message, the content area was
cleared, the cache is untouched, and the `finally` block has hidden the
loader.  All error paths lie past the cache check, so a fetch was issued. -/
def errorExit (cached : Option String) (message : String) : EngineResult :=
  { content := ""
    cache := cached
    errorShown := some message
    loaderHidden := true
    fetched := true }

/-- The fetch-cache-render engine `fetchDataAndDisplay` of the client
script, as a function from the pre-run cache entry, the network
behaviour and the transform to the observable result.  Mirrors the
source: warm-cache early return on a truthy cached string, the four
classified fetch errors, the transform call (its raised errors wrapped as
a processing error), and the non-empty / empty-fragment branches, with
the cache written only in the non-empty branch and the loader hidden in
the `finally` block on every path. -/
def fetchDataAndDisplay {D : Type} (cached : Option String)
    (net : NetworkOutcome D) (processDataFunction : D → TransformOutcome)
    (emptyDataMessage : String) : EngineResult :=
  if jsTruthyStr cached then
    { content := cached.getD ""
      cache := cached
      errorShown := none
      loaderHidden := true
      fetched := false }
  else
    match net with
    | .netError =>
        errorExit cached "Could not connect to the server. Please check your internet connection."
    | .httpError status statusText =>
        errorExit cached
          ("Failed to load data: Server responded with " ++ toString status
            ++ " (" ++ statusText ++ ").")
    | .badContentType =>
        errorExit cached "The server provided data in an unexpected format (expected JSON)."
    | .jsonParseError =>
        errorExit cached
          "There was an issue understanding the data from the server (JSON parsing failed)."
    | .ok body =>
        match processDataFunction body with
        | .raise =>
            errorExit cached "There was an issue preparing the data for display."
        | .value htmlContent =>
            if jsTruthyStr htmlContent ∧ jsTrim (htmlContent.getD "") ≠ "" then
              { content := htmlContent.getD ""
                cache := htmlContent
                errorShown := none
                loaderHidden := true
                fetched := true }
            else
              { content := "<p>" ++ emptyDataMessage ++ "</p>"
                cache := cached
                errorShown := none
                loaderHidden := true
                fetched := true }

/-!
Standings normalizer `processStandingsData`.
-/

/-- Value of one entry of a stats array as the code inspects it with
`typeof`: a number, a string, or anything else (including absent). -/
inductive StatValue where
  | num (n : Int)
  | str (s : String)
  | other
deriving DecidableEq, Repr

/-- One element of a `stats` array: optional `name`, optional
`abbreviation`, and a `value`. -/
structure Stat where
  name : Option String
  abbreviation : Option String
  value : StatValue
deriving DecidableEq, Repr

/-- The nested `team` object of a standings entry, carrying the id. -/
structure TeamObj where
  id : Option String
deriving DecidableEq, Repr

/-- A candidate record object: a standings entry (with a `team`), a
`record.items` element (with `type` and `description`) or a `records`
element (with `type` and `name`), all carrying the optional `summary`
string and `stats` array from which the W-L-T values are extracted.  A
`stats` element can be null (`none`), which some of the code guards
against and some does not. -/
structure RecordObj where
  team : Option TeamObj
  type : Option String
  description : Option String
  name : Option String
  summary : Option String
  stats : Option (List (Option Stat))
deriving DecidableEq, Repr

/-- The `standings` object of one group child, holding `entries`. -/
structure StandingsList where
  entries : Option (List RecordObj)
deriving DecidableEq, Repr

/-- One element of `data.children`: a conference-like grouping that may
hold a `standings.entries` list. -/
structure GroupChild where
  standings : Option StandingsList
deriving DecidableEq, Repr

/-- The `data.record` object with its `items` list. -/
structure RecordItems where
  items : Option (List RecordObj)
deriving DecidableEq, Repr

/-- Raw standings payload: the three alternative shapes the normalizer
sniffs, in one object. -/
structure StandingsData where
  children : Option (List GroupChild)
  record : Option RecordItems
  records : Option (List RecordObj)
deriving DecidableEq, Repr

/-- Result of `processStandingsData`: a returned HTML string, a returned
null (the empty signal), or a TypeError escaping the function. -/
inductive StandingsResult where
  | html (s : String)
  | noData
  | jsThrow
deriving DecidableEq, Repr

/-- Digit-run value of a list of ASCII digits, as `parseInt` reads it. -/
def digitsVal (cs : List Char) : Nat :=
  cs.foldl (fun acc c => acc * 10 + (c.toNat - 48)) 0

/-- JavaScript `parseInt(s, 10)`: skip leading whitespace, read an
optional sign and a leading run of decimal digits; `none` models NaN
(no digits found). -/
def parseIntJS (s : String) : Option Int :=
  let cs := s.data.dropWhile isJsWhitespace
  let signed : Int × List Char :=
    match cs with
    | '-' :: rest => (-1, rest)
    | '+' :: rest => (1, rest)
    | _ => (1, cs)
  let ds := signed.2.takeWhile Char.isDigit
  if ds.isEmpty then none
  else some (signed.1 * Int.ofNat (digitsVal ds))

/-- JavaScript `parseInt(s, 10) || 0`: NaN collapses to 0 (and a parsed
0 stays 0). -/
def parseIntOrZero (s : String) : Int :=
  match parseIntJS s with
  | some n => n
  | none => 0

/-- Split a character list at every dash, as the summary regex groups do. -/
def splitDashAux : List Char → List Char → List (List Char)
  | [], acc => [acc.reverse]
  | c :: cs, acc =>
      if c = '-' then acc.reverse :: splitDashAux cs []
      else splitDashAux cs (c :: acc)

/-- A non-empty all-ASCII-digit group, as matched by one `(\d+)`. -/
def allDigitChars (cs : List Char) : Bool :=
  !cs.isEmpty && cs.all Char.isDigit

/-- The summary regex of the source, `^(\d+)-(\d+)(?:-(\d+))?$`, with the
`parseInt(group, 10) || 0` conversion of each captured group: `W-L` or
`W-L-T` over ASCII digits, the missing third group defaulting to 0. -/
def summaryMatch (s : String) : Option (Nat × Nat × Nat) :=
  match splitDashAux s.data [] with
  | [w, l] =>
      if allDigitChars w && allDigitChars l then
        some (digitsVal w, digitsVal l, 0)
      else none
  | [w, l, t] =>
      if allDigitChars w && allDigitChars l && allDigitChars t then
        some (digitsVal w, digitsVal l, digitsVal t)
      else none
  | _ => none

/-- `name.toUpperCase().slice(0, 1)`: the upper-cased first character of
a stat name, used as its abbreviation form. -/
def jsAbbrevOf (n : String) : String :=
  String.mk ((n.data.map Char.toUpper).take 1)

/-- `teamRecord.stats.find(s => s && (s.name === name || s.abbreviation
=== name.toUpperCase().slice(0, 1)))`: first non-null element whose name
or abbreviation matches; null elements are guarded and skipped. -/
def findStat : List (Option Stat) → String → Option Stat
  | [], _ => none
  | none :: rest, n => findStat rest n
  | some st :: rest, n =>
      if st.name == some n || st.abbreviation == some (jsAbbrevOf n) then some st
      else findStat rest n

/-- Outcome of a JavaScript expression that can raise a TypeError. -/
inductive JsOutcome (α : Type) where
  | ok (a : α)
  | jsThrow
deriving DecidableEq, Repr

/-- The `getStatValue` helper of `processStandingsData`.  When the stat
is found, a numeric value is used as is, a string value goes through
`parseInt(v, 10) || 0`, and any other value collapses to 0.  When the
stat is NOT found, evaluating `typeof stat.value` dereferences
`undefined` and raises a TypeError, despite the doc
comment of the helper itself promising 0 for a missing stat. -/
def getStatValue (stats : List (Option Stat)) (n : String) : JsOutcome Int :=
  match findStat stats n with
  | some st =>
      match st.value with
      | .num v => .ok v
      | .str s => .ok (parseIntOrZero s)
      | .other => .ok 0
  | none => .jsThrow

/-- `teamRecord.stats.some` over the name wins: unguarded element
access, so a null element reached before any entry named wins raises a
TypeError. -/
def statsSomeWins : List (Option Stat) → JsOutcome Bool
  | [] => .ok false
  | none :: _ => .jsThrow
  | some st :: rest =>
      if st.name == some "wins" then .ok true else statsSomeWins rest

/-- The acceptance condition of the stats fallback, with JavaScript
short-circuiting: `wins > 0 || losses > 0 || ties > 0 ||
teamRecord.stats.some over the name wins`. -/
def statsAccept (stats : List (Option Stat)) (w l t : Int) : JsOutcome Bool :=
  if w > 0 || l > 0 || t > 0 then .ok true else statsSomeWins stats

/-- Predicate of the `entries.find` in attempt 1: `entry.team` present with team id 28 (the Washington Commanders id). -/
def entryIsTeam28 (e : RecordObj) : Bool :=
  match e.team with
  | some t => t.id == some "28"
  | none => false

/-- Predicate of the `record.items.find` in attempt 2:
item type total or description Overall. -/
def isTotalItem (item : RecordObj) : Bool :=
  item.type == some "total" || item.description == some "Overall"

/-- Predicate of the `records.find` in attempt 3:
record type total or name Overall. -/
def isTotalRecord (r : RecordObj) : Bool :=
  r.type == some "total" || r.name == some "Overall"

/-- Attempt 1 of `processStandingsData`: walk `data.children`, and in
each child holding a `standings.entries` array look for the entry of the tracked
team, stopping at the first hit. -/
def findInChildren : List GroupChild → Option RecordObj
  | [] => none
  | c :: rest =>
      match c.standings with
      | some st =>
          match st.entries with
          | some entries =>
              match entries.find? entryIsTeam28 with
              | some r => some r
              | none => findInChildren rest
          | none => findInChildren rest
      | none => findInChildren rest

/-- Attempt 3 of `processStandingsData`, reached through the `else if`:
search a present non-empty `data.records` array for a total-type or
Overall-named entry. -/
def selectRecords (d : StandingsData) : Option RecordObj :=
  match d.records with
  | some (r :: rs) => (r :: rs).find? isTotalRecord
  | _ => none

/-- Attempts 2 and 3 of `processStandingsData` with the `if / else if` shape of the source: when `data.record.items` is a present non-empty
array, ONLY that array is searched (a failed find leaves the record
unresolved without falling through to `data.records`); the `records`
array is consulted only when the `record.items` condition itself fails. -/
def selectFlat (d : StandingsData) : Option RecordObj :=
  match d.record with
  | some rec =>
      match rec.items with
      | some (item :: items) => (item :: items).find? isTotalItem
      | _ => selectRecords d
  | none => selectRecords d

/-- The record-selection phase of `processStandingsData`: attempt 1 over
`children`, then the flat attempts. -/
def selectTeamRecord (d : StandingsData) : Option RecordObj :=
  match d.children with
  | some cs =>
      match findInChildren cs with
      | some r => some r
      | none => selectFlat d
  | none => selectFlat d

/-- The summary line of the source:
`Washington Commanders: WV - LD - TE (Source: Summary String)`. -/
def summaryLine (w l t : Nat) : String :=
  "<p>Washington Commanders: " ++ (toString w ++ ("V - " ++ (toString l
    ++ ("D - " ++ (toString t ++ "E (Source: Summary String)</p>")))))

/-- The stats line of the source:
`Washington Commanders: WV - LD - TE (Source: Stats Array)`. -/
def statsLine (w l t : Int) : String :=
  "<p>Washington Commanders: " ++ (toString w ++ ("V - " ++ (toString l
    ++ ("D - " ++ (toString t ++ "E (Source: Stats Array)</p>")))))

/-- The stats-array fallback of `processStandingsData`: the three
`getStatValue` lookups in source order (wins, losses, ties), then the
acceptance condition; any TypeError escapes. -/
def statsBranch (stats : List (Option Stat)) : StandingsResult :=
  match getStatValue stats "wins" with
  | .jsThrow => .jsThrow
  | .ok w =>
      match getStatValue stats "losses" with
      | .jsThrow => .jsThrow
      | .ok l =>
          match getStatValue stats "ties" with
          | .jsThrow => .jsThrow
          | .ok t =>
              match statsAccept stats w l t with
              | .jsThrow => .jsThrow
              | .ok true => .html (statsLine w l t)
              | .ok false => .noData

/-- Priority 1 of the extraction: the parsed summary string, `none` when
the summary is absent or does not match the regex.  A falsy (empty)
summary string skips the summary branch in the source via truthiness;
here it falls through identically because the regex never matches the
empty string. -/
def summaryParsed (r : RecordObj) : Option (Nat × Nat × Nat) :=
  match r.summary with
  | some s => summaryMatch s
  | none => none

/-- `processStandingsData` of the client script: validate the payload,
select a record object through the three attempts, then extract W-L-T
first from the `summary` string and otherwise through the stats-array
fallback; every unresolved path returns null (the empty signal). -/
def processStandingsData (data : Option StandingsData) : StandingsResult :=
  match data with
  | none => .noData
  | some d =>
      match selectTeamRecord d with
      | none => .noData
      | some teamRecord =>
          match summaryParsed teamRecord with
          | some (w, l, t) => .html (summaryLine w l t)
          | none =>
              match teamRecord.stats with
              | some stats => statsBranch stats
              | none => .noData

/-- True when the summary string of the record is present and parses under
the summary regex; the claim phrase about a summary absent or unparsable is
its negation. -/
def summaryUsable (r : RecordObj) : Bool :=
  (summaryParsed r).isSome

/-!
Events normalizer `processTeamEventsData`.
-/

/-- The nested `team` object of a competitor. -/
structure TeamInfo where
  displayName : Option String
  name : Option String
  abbreviation : Option String
  logo : Option String
deriving DecidableEq, Repr

/-- One competitor of a competition; a list element can be null, which
the side-finding predicate guards against. -/
structure Competitor where
  homeAway : Option String
  team : Option TeamInfo
  score : Option String
deriving DecidableEq, Repr

/-- The `status.type` object of a competition: the completion flag
(absent behaves as false under truthiness) and the human description. -/
structure StatusType where
  completed : Bool
  description : Option String
deriving DecidableEq, Repr

/-- The `status` object of a competition. -/
structure EventStatus where
  type : Option StatusType
deriving DecidableEq, Repr

/-- One competition of an event. -/
structure Competition where
  competitors : Option (List (Option Competitor))
  status : Option EventStatus
deriving DecidableEq, Repr

/-- One event of the schedule payload. -/
structure EventObj where
  date : Option String
  name : Option String
  competitions : Option (List Competition)
deriving DecidableEq, Repr

/-- Raw events payload; a list element that is not a valid object is
`none`, matching the per-event check that the entry is a valid object. -/
structure EventsData where
  events : Option (List (Option EventObj))
deriving DecidableEq, Repr

/-- The event date string: `Date N/A` for a falsy date field, otherwise
the es-ES Europe/Madrid locale rendering of the parsed date when valid.
The host Date parsing and locale formatting are abstracted as the
environment function `fmt`, returning `none` for an invalid date. -/
def eventDateStr (fmt : String → Option String) (event : EventObj) : String :=
  match event.date with
  | some ds =>
      if ds = "" then "Date N/A"
      else
        match fmt ds with
        | some formatted => formatted
        | none => "Date N/A"
  | none => "Date N/A"

/-- `event.competitions && event.competitions[0]`: the first competition
when the list is present and non-empty. -/
def firstCompetition (event : EventObj) : Option Competition :=
  match event.competitions with
  | some (c :: _) => some c
  | _ => none

/-- `competitors.find(t => t && t.homeAway === side)`. -/
def findSide : List (Option Competitor) → String → Option Competitor
  | [], _ => none
  | none :: rest, side => findSide rest side
  | some c :: rest, side =>
      if c.homeAway == some side then some c else findSide rest side

/-- The `formatTeamInfo` helper: abbreviation plus logo image, the image
visually hidden when the logo URL is falsy. -/
def formatTeamInfo (team : TeamInfo) : String :=
  let name := orDefault team.displayName (orDefault team.name "Unknown Team")
  let abbreviation := orDefault team.abbreviation "N/A"
  let logo := orDefault team.logo ""
  abbreviation ++ (" <img src=\"" ++ (logo ++ ("\" alt=\"" ++ (name
    ++ (" logo\" style=\"height: 20px; vertical-align: middle; "
      ++ ((if logo = "" then "display:none;" else "") ++ "\">"))))))

/-- The minimal fallback line for an event with missing competition or
competitor data. -/
def fallbackCompetitionLine (fmt : String → Option String) (event : EventObj) : String :=
  "<p>" ++ ("Evento: " ++ (orDefault event.name "Unnamed Event" ++ (" - Fecha: "
    ++ (eventDateStr fmt event ++ " - Datos de competición incompletos</p>"))))

/-- The minimal fallback line for an event with incomplete home/away
team data. -/
def fallbackTeamLine (fmt : String → Option String) (event : EventObj) : String :=
  "<p>" ++ ("Evento: " ++ (orDefault event.name "Unnamed Event" ++ (" - Fecha: "
    ++ (eventDateStr fmt event ++ " - Datos de equipo incompletos</p>"))))

/-- The score/status field of a complete event line: the default
`Pendiente`, replaced by `homeScore - awayScore` (scores defaulting to
0) when `status.type.completed` is truthy, else by a truthy
`status.type.description`. -/
def eventScore (competition : Competition) (homeTeamData awayTeamData : Competitor) : String :=
  match competition.status with
  | none => "Pendiente"
  | some st =>
      match st.type with
      | none => "Pendiente"
      | some ty =>
          if ty.completed then
            orDefault homeTeamData.score "0" ++ (" - " ++ orDefault awayTeamData.score "0")
          else
            match ty.description with
            | some d => if d = "" then "Pendiente" else d
            | none => "Pendiente"

/-- The body of the per-event `map` of `processTeamEventsData`: skip
invalid entries with an empty string, degrade to a minimal fallback line
when competition or team data is incomplete, and otherwise emit the full
away-at-home line with date and score. -/
def processEvent (fmt : String → Option String) (entry : Option EventObj) : String :=
  match entry with
  | none => ""
  | some event =>
      match firstCompetition event with
      | none => fallbackCompetitionLine fmt event
      | some competition =>
          match competition.competitors with
          | none => fallbackCompetitionLine fmt event
          | some competitors =>
              if competitors.length < 2 then fallbackCompetitionLine fmt event
              else
                match findSide competitors "home", findSide competitors "away" with
                | some homeTeamData, some awayTeamData =>
                    match homeTeamData.team, awayTeamData.team with
                    | some homeTeam, some awayTeam =>
                        "<p>" ++ (formatTeamInfo awayTeam ++ (" @ "
                          ++ (formatTeamInfo homeTeam ++ (" | Fecha: "
                            ++ (eventDateStr fmt event ++ (" | Estado: "
                              ++ (eventScore competition homeTeamData awayTeamData
                                ++ "</p>")))))))
                    | _, _ => fallbackTeamLine fmt event
                | _, _ => fallbackTeamLine fmt event

/-- `processTeamEventsData` of the client script: validate the `events`
array, map each entry through the per-event body, drop the empty strings
of skipped entries, join, and return null when nothing displayable
remains. -/
def processTeamEventsData (fmt : String → Option String)
    (data : Option EventsData) : Option String :=
  match data with
  | none => none
  | some d =>
      match d.events with
      | some (e :: es) =>
          let processedEvents :=
            String.join (((e :: es).map (processEvent fmt)).filter (fun s => s ≠ ""))
          if jsTrim processedEvents = "" then none else some processedEvents
      | _ => none

/-!
Podcasts normalizer `processPodcasts`.
-/

/-- One podcast item of the content payload. -/
structure Podcast where
  title : Option String
  src : Option String
deriving DecidableEq, Repr

/-- Raw podcasts payload. -/
structure PodcastsData where
  podcasts : Option (List Podcast)
deriving DecidableEq, Repr

/-- The body of the per-item `map` of `processPodcasts`: an item whose
source URL is falsy is skipped by returning the empty string, otherwise
the audio card template of the source is emitted (whitespace preserved
from the template literal). -/
def podcastItemHtml (podcast : Podcast) : String :=
  let title := orDefault podcast.title "Untitled Podcast"
  let src := orDefault podcast.src ""
  if src = "" then ""
  else
    "\n        <div class=\"podcast-item\">\n            <h3>" ++ (title
      ++ ("</h3>\n            <audio controls aria-label=\"Reproducir " ++ (title
        ++ ("\">\n                <source src=\"" ++ (src
          ++ ("\" type=\"audio/mpeg\">\n                Tu navegador no soporta audio HTML5.\n            </audio>\n        </div>\n    "))))))

/-- `processPodcasts` of the client script: validate the `podcasts`
array, map each item to its card (or to the empty string when the item
lacks a source URL) and join; an all-skipped list therefore returns the
empty string, which the emptiness test of the engine treats as no data. -/
def processPodcasts (data : Option PodcastsData) : Option String :=
  match data with
  | none => none
  | some d =>
      match d.podcasts with
      | some (p :: ps) => some (String.join ((p :: ps).map podcastItemHtml))
      | _ => none

/-!
Observers used to state the claims, and concrete payloads for the
counterexamples and witnesses.
-/

/-- Whether the competition status indicates completion: truthiness of
`competition.status && competition.status.type &&
competition.status.type.completed`. -/
def statusCompleted (c : Competition) : Bool :=
  match c.status with
  | some st =>
      match st.type with
      | some ty => ty.completed
      | none => false
  | none => false

/-- The human status description when present (truthy): the value of
`competition.status.type.description` when the chain is present and the
string non-empty. -/
def statusDescription (c : Competition) : Option String :=
  match c.status with
  | some st =>
      match st.type with
      | some ty =>
          match ty.description with
          | some d => if d = "" then none else some d
          | none => none
      | none => none
  | none => none

/-- A `record.items` element that is neither total-typed nor
Overall-described: shape (b) finds nothing in a list holding only it. -/
def flatOnlyItem : RecordObj :=
  { team := none, type := some "league", description := none, name := none,
    summary := none, stats := none }

/-- A total-typed `records` element with summary 11-5: shape (c) would
resolve it if tried. -/
def overallRec11x5 : RecordObj :=
  { team := none, type := some "total", description := none, name := none,
    summary := some "11-5", stats := none }

/-- Payload with a present but matchless `record.items` list AND a
`records` list holding a total record: the input on which shapes (b)
and (c) disagree with the ordering of the spec. -/
def bothFlatShapes : StandingsData :=
  { children := none, record := some { items := some [flatOnlyItem] },
    records := some [overallRec11x5] }

/-- The same payload without the `record` object, so that shape (c) is
actually reached. -/
def recordsOnlyShape : StandingsData :=
  { children := none, record := none, records := some [overallRec11x5] }

/-- The `record.items` element of the standings test of the spec:
type total, summary 11-5-1. -/
def totalItem11x5x1 : RecordObj :=
  { team := none, type := some "total", description := none, name := none,
    summary := some "11-5-1", stats := none }

/-- Payload whose `record.items` holds exactly the 11-5-1 total item. -/
def summaryShape : StandingsData :=
  { children := none, record := some { items := some [totalItem11x5x1] },
    records := none }

/-- A stats array holding only a wins entry with value zero. -/
def winsZeroOnlyStat : Stat :=
  { name := some "wins", abbreviation := none, value := StatValue.num 0 }

/-- A summary-less record whose stats array holds only the zero wins
entry: the claims expect acceptance, the code raises looking up losses. -/
def winsZeroOnlyRecord : RecordObj :=
  { team := none, type := some "total", description := none, name := none,
    summary := none, stats := some [some winsZeroOnlyStat] }

/-- Payload carrying `winsZeroOnlyRecord` through `record.items`. -/
def winsZeroOnlyShape : StandingsData :=
  { children := none, record := some { items := some [winsZeroOnlyRecord] },
    records := none }

/-- A complete stats array: wins 7, losses 9, ties 0. -/
def statsW7L9T0 : List (Option Stat) :=
  [some { name := some "wins", abbreviation := none, value := StatValue.num 7 },
   some { name := some "losses", abbreviation := none, value := StatValue.num 9 },
   some { name := some "ties", abbreviation := none, value := StatValue.num 0 }]

/-- A summary-less record carrying `statsW7L9T0`. -/
def statsRecordW7 : RecordObj :=
  { team := none, type := some "total", description := none, name := none,
    summary := none, stats := some statsW7L9T0 }

/-- Payload carrying `statsRecordW7` through `record.items`. -/
def statsShapeW7 : StandingsData :=
  { children := none, record := some { items := some [statsRecordW7] },
    records := none }

/-- Concrete home team for the events witnesses. -/
def commandersTeam : TeamInfo :=
  { displayName := some "Washington Commanders", name := none,
    abbreviation := some "WSH", logo := some "wsh.png" }

/-- Concrete away team for the events witnesses. -/
def cowboysTeam : TeamInfo :=
  { displayName := some "Dallas Cowboys", name := none,
    abbreviation := some "DAL", logo := none }

/-- Concrete home competitor with a score of 20. -/
def homeCompetitor : Competitor :=
  { homeAway := some "home", team := some commandersTeam, score := some "20" }

/-- Concrete away competitor with a missing score. -/
def awayCompetitor : Competitor :=
  { homeAway := some "away", team := some cowboysTeam, score := none }

/-- A completed competition between the two concrete competitors. -/
def finishedCompetition : Competition :=
  { competitors := some [some homeCompetitor, some awayCompetitor],
    status := some { type := some { completed := true, description := some "Final" } } }

/-- A well-formed event holding the completed competition. -/
def finishedEvent : EventObj :=
  { date := none, name := some "DAL at WSH", competitions := some [finishedCompetition] }

/-- Environment in which every date string is unparsable. -/
def noDateFmt : String → Option String := fun _ => none

/-- A podcast item with no source URL. -/
def srclessPodcast : Podcast := { title := some "Ep1", src := none }

/-- A podcasts payload in which every item lacks a source URL. -/
def srclessPodcastsData : PodcastsData := { podcasts := some [srclessPodcast] }

/-!
Shared lemmas about the JavaScript string helpers.
-/

/-- A character that fails the predicate survives `dropWhile`. -/
theorem mem_dropWhile_of_not {p : Char → Bool} {c : Char} (hc : p c = false) :
    ∀ {l : List Char}, c ∈ l → c ∈ l.dropWhile p := by
  intro l
  induction l with
  | nil => intro h; cases h
  | cons a l ih =>
      intro h
      rw [List.dropWhile_cons]
      by_cases hp : p a = true
      · simp only [hp, if_true]
        rcases List.mem_cons.mp h with h1 | h2
        · rw [h1] at hc; rw [hc] at hp; cases hp
        · exact ih h2
      · simp only [hp, if_false]
        exact h

/-- A string of whitespace characters trims to the empty string. -/
theorem jsTrim_eq_empty {s : String} (h : ∀ c ∈ s.data, isJsWhitespace c = true) :
    jsTrim s = "" := by
  unfold jsTrim
  rw [List.dropWhile_eq_nil_iff.mpr h]
  rfl

/-- A string holding a non-whitespace character does not trim to the
empty string. -/
theorem jsTrim_ne_empty {s : String} {c : Char} (hmem : c ∈ s.data)
    (hws : isJsWhitespace c = false) : jsTrim s ≠ "" := by
  unfold jsTrim
  intro h
  have hdata :
      ((s.data.dropWhile isJsWhitespace).reverse.dropWhile isJsWhitespace).reverse
        = ([] : List Char) := congrArg String.data h
  rw [List.reverse_eq_nil_iff] at hdata
  have hall := List.dropWhile_eq_nil_iff.mp hdata
  have hc1 : c ∈ s.data.dropWhile isJsWhitespace := mem_dropWhile_of_not hws hmem
  have hc2 := hall c (List.mem_reverse.mpr hc1)
  rw [hws] at hc2
  cases hc2

/-- A string whose head is an opening angle bracket does not trim to
the empty string. -/
theorem jsTrim_ne_empty_of_head {s : String} (h : s.data.head? = some '<') :
    jsTrim s ≠ "" :=
  jsTrim_ne_empty (List.mem_of_mem_head? (by rw [h]; rfl)) (by decide)

/-- The head of an append whose left part is a `<p>` literal. -/
theorem head_p_append (r : String) :
    (("<p>" : String) ++ r).data.head? = some '<' := by
  rw [String.data_append, List.head?_append]
  rfl

/-- A string whose data has a head is non-empty. -/
theorem ne_empty_of_head {s : String} {c : Char} (h : s.data.head? = some c) :
    s ≠ "" := by
  intro he
  rw [he] at h
  cases h

/-- Folding append over a list of empty strings returns the seed. -/
theorem foldl_append_all_empty :
    ∀ (l : List String) (acc : String), (∀ x ∈ l, x = "") →
      l.foldl (fun r s => r ++ s) acc = acc
  | [], _, _ => rfl
  | x :: xs, acc, h => by
      rw [List.foldl_cons, h x (List.mem_cons_self x xs), String.append_empty]
      exact foldl_append_all_empty xs acc fun y hy => h y (List.mem_cons_of_mem x hy)

/-- Joining a list of empty strings yields the empty string. -/
theorem join_all_empty (l : List String) (h : ∀ x ∈ l, x = "") :
    String.join l = "" :=
  foldl_append_all_empty l "" h

/-- Folding append distributes over the seed. -/
theorem foldl_append_shift :
    ∀ (xs : List String) (a : String),
      xs.foldl (fun r s => r ++ s) a = a ++ xs.foldl (fun r s => r ++ s) ""
  | [], a => by rw [List.foldl_nil, List.foldl_nil, String.append_empty]
  | x :: xs, a => by
      rw [List.foldl_cons, List.foldl_cons, foldl_append_shift xs (a ++ x),
        foldl_append_shift xs ("" ++ x), String.empty_append, String.append_assoc]

/-- `String.join` unfolds over cons. -/
theorem join_cons (x : String) (xs : List String) :
    String.join (x :: xs) = x ++ String.join xs := by
  show (x :: xs).foldl (fun r s => r ++ s) "" = _
  rw [List.foldl_cons, String.empty_append, foldl_append_shift]
  rfl

/-!
Claim theorems.
-/

/-- Claim C9: on every terminating execution path of the engine (cached
early return, successful render, empty-signal render, or any classified
or unexpected error) the loading indicator is hidden when the run exits;
the engine never terminates leaving the loader visible. -/
theorem c9_loader_always_hidden {D : Type} (cached : Option String)
    (net : NetworkOutcome D) (processDataFunction : D → TransformOutcome)
    (emptyDataMessage : String) :
    (fetchDataAndDisplay cached net processDataFunction emptyDataMessage).loaderHidden
      = true := by
  unfold fetchDataAndDisplay errorExit
  split
  · rfl
  · split
    · rfl
    · rfl
    · rfl
    · rfl
    · split
      · rfl
      · split
        · rfl
        · rfl

/-- Claim C1 counterexample: with an empty-string cache entry for the
cacheKey (an entry the store can hold, treated as absent by the
truthiness test of the code), the engine issues the network fetch and renders the
transform output instead of the cached fragment, so the claimed
no-fetch guarantee for any cache entry fails. -/
theorem c1_counterexample :
    (fetchDataAndDisplay (some "") (NetworkOutcome.ok ())
        (fun _ : Unit => TransformOutcome.value (some "<p>x</p>")) "nada").fetched = true
    ∧ (fetchDataAndDisplay (some "") (NetworkOutcome.ok ())
        (fun _ : Unit => TransformOutcome.value (some "<p>x</p>")) "nada").content
        = "<p>x</p>"
    ∧ (fetchDataAndDisplay (some "") (NetworkOutcome.ok ())
        (fun _ : Unit => TransformOutcome.value (some "<p>x</p>")) "nada").cache
        = some "<p>x</p>" := by
  decide

/-- Claim C1 as amended: when the local cache holds a NON-EMPTY entry
for the cacheKey, the engine renders exactly that cached fragment,
issues no network fetch regardless of the network behaviour, leaves the
cache unchanged and shows no error. -/
theorem c1_warm_cache {D : Type} (cached : Option String) (net : NetworkOutcome D)
    (processDataFunction : D → TransformOutcome) (emptyDataMessage : String)
    (s : String) (hc : cached = some s) (hs : s ≠ "") :
    (fetchDataAndDisplay cached net processDataFunction emptyDataMessage).content = s
    ∧ (fetchDataAndDisplay cached net processDataFunction emptyDataMessage).cache = some s
    ∧ (fetchDataAndDisplay cached net processDataFunction emptyDataMessage).fetched = false
    ∧ (fetchDataAndDisplay cached net processDataFunction emptyDataMessage).errorShown
        = none := by
  subst hc
  have ht : jsTruthyStr (some s) = true := by
    unfold jsTruthyStr
    exact decide_eq_true hs
  unfold fetchDataAndDisplay
  rw [ht]
  exact ⟨rfl, rfl, rfl, rfl⟩

/-- Witness for C1: a concrete warm-cache run under a failing network. -/
theorem c1_warm_cache_witness :
    (fetchDataAndDisplay (some "<p>hi</p>") (NetworkOutcome.netError : NetworkOutcome Unit)
        (fun _ => TransformOutcome.raise) "nada").content = "<p>hi</p>"
    ∧ (fetchDataAndDisplay (some "<p>hi</p>") (NetworkOutcome.netError : NetworkOutcome Unit)
        (fun _ => TransformOutcome.raise) "nada").cache = some "<p>hi</p>"
    ∧ (fetchDataAndDisplay (some "<p>hi</p>") (NetworkOutcome.netError : NetworkOutcome Unit)
        (fun _ => TransformOutcome.raise) "nada").fetched = false
    ∧ (fetchDataAndDisplay (some "<p>hi</p>") (NetworkOutcome.netError : NetworkOutcome Unit)
        (fun _ => TransformOutcome.raise) "nada").errorShown = none :=
  c1_warm_cache (some "<p>hi</p>") NetworkOutcome.netError
    (fun _ => TransformOutcome.raise) "nada" "<p>hi</p>" rfl (by decide)

/-- Claim C3: when the transform returns the empty signal the engine
renders the emptyMessage and writes nothing to the cache; and across all
runs, the cache entry changes only in the branch where the transform
returned a non-empty (non-whitespace) fragment, in which case the new
entry is exactly the rendered fragment. -/
theorem c3_empty_never_cached {D : Type} :
    (∀ (cached : Option String) (processDataFunction : D → TransformOutcome)
        (emptyDataMessage : String) (body : D),
        jsTruthyStr cached = false →
        processDataFunction body = TransformOutcome.value none →
        (fetchDataAndDisplay cached (NetworkOutcome.ok body) processDataFunction
            emptyDataMessage).content = "<p>" ++ emptyDataMessage ++ "</p>"
        ∧ (fetchDataAndDisplay cached (NetworkOutcome.ok body) processDataFunction
            emptyDataMessage).cache = cached)
    ∧ (∀ (cached : Option String) (net : NetworkOutcome D)
        (processDataFunction : D → TransformOutcome) (emptyDataMessage : String),
        (fetchDataAndDisplay cached net processDataFunction emptyDataMessage).cache
            ≠ cached →
        ∃ body s, net = NetworkOutcome.ok body
          ∧ processDataFunction body = TransformOutcome.value (some s)
          ∧ jsTrim s ≠ ""
          ∧ (fetchDataAndDisplay cached net processDataFunction emptyDataMessage).cache
              = some s
          ∧ (fetchDataAndDisplay cached net processDataFunction emptyDataMessage).content
              = s) := by
  constructor
  · intro cached processDataFunction emptyDataMessage body hc hv
    unfold fetchDataAndDisplay
    rw [hc]
    simp only [Bool.false_eq_true, if_false, hv]
    exact ⟨rfl, rfl⟩
  · intro cached net processDataFunction emptyDataMessage h
    by_cases hc : jsTruthyStr cached = true
    · exfalso
      apply h
      unfold fetchDataAndDisplay
      rw [hc]
      cases cached with
      | none => cases hc
      | some s => rfl
    · rw [Bool.not_eq_true] at hc
      cases net with
      | netError =>
          exfalso; apply h
          simp only [fetchDataAndDisplay, hc, Bool.false_eq_true, if_false, errorExit]
      | httpError status statusText =>
          exfalso; apply h
          simp only [fetchDataAndDisplay, hc, Bool.false_eq_true, if_false, errorExit]
      | badContentType =>
          exfalso; apply h
          simp only [fetchDataAndDisplay, hc, Bool.false_eq_true, if_false, errorExit]
      | jsonParseError =>
          exfalso; apply h
          simp only [fetchDataAndDisplay, hc, Bool.false_eq_true, if_false, errorExit]
      | ok body =>
          cases hv : processDataFunction body with
          | raise =>
              exfalso; apply h
              simp only [fetchDataAndDisplay, hc, Bool.false_eq_true, if_false, hv, errorExit]
          | value v =>
              cases v with
              | none =>
                  exfalso; apply h
                  simp only [fetchDataAndDisplay, hc, Bool.false_eq_true, if_false, hv]
                  simp [jsTruthyStr]
              | some s =>
                  by_cases htr : jsTrim s = ""
                  · exfalso; apply h
                    simp only [fetchDataAndDisplay, hc, Bool.false_eq_true, if_false, hv]
                    simp [htr]
                  · have hs : s ≠ "" := fun e => htr (by rw [e]; rfl)
                    refine ⟨body, s, rfl, hv, htr, ?_, ?_⟩ <;>
                      · simp only [fetchDataAndDisplay, hc, Bool.false_eq_true, if_false, hv]
                        simp [jsTruthyStr, hs, htr]

/-- Witness for C3: a concrete empty-signal run renders the empty
message and leaves the (empty) cache untouched. -/
theorem c3_empty_never_cached_witness :
    (fetchDataAndDisplay (none : Option String) (NetworkOutcome.ok ())
        (fun _ : Unit => TransformOutcome.value none) "vacio").content = "<p>" ++ "vacio" ++ "</p>"
    ∧ (fetchDataAndDisplay (none : Option String) (NetworkOutcome.ok ())
        (fun _ : Unit => TransformOutcome.value none) "vacio").cache = none :=
  (c3_empty_never_cached (D := Unit)).1 none (fun _ => TransformOutcome.value none)
    "vacio" () rfl rfl

/-- Claim C10: a transform result consisting only of whitespace is
treated exactly like the empty signal: the engine renders the
emptyMessage and writes nothing to the cache. -/
theorem c10_whitespace_is_empty {D : Type} (cached : Option String)
    (processDataFunction : D → TransformOutcome) (emptyDataMessage : String)
    (body : D) (s : String)
    (hc : jsTruthyStr cached = false)
    (hv : processDataFunction body = TransformOutcome.value (some s))
    (hws : ∀ c ∈ s.data, isJsWhitespace c = true) :
    (fetchDataAndDisplay cached (NetworkOutcome.ok body) processDataFunction
        emptyDataMessage).content = "<p>" ++ emptyDataMessage ++ "</p>"
    ∧ (fetchDataAndDisplay cached (NetworkOutcome.ok body) processDataFunction
        emptyDataMessage).cache = cached := by
  have htr : jsTrim s = "" := jsTrim_eq_empty hws
  simp only [fetchDataAndDisplay, hc, Bool.false_eq_true, if_false, hv]
  simp [htr]

/-- Witness for C10: a run whose transform returns a pure-whitespace
fragment ends on the empty message with nothing cached. -/
theorem c10_whitespace_is_empty_witness :
    (fetchDataAndDisplay (none : Option String) (NetworkOutcome.ok ())
        (fun _ : Unit => TransformOutcome.value (some " \n\t ")) "vacio").content
        = "<p>" ++ "vacio" ++ "</p>"
    ∧ (fetchDataAndDisplay (none : Option String) (NetworkOutcome.ok ())
        (fun _ : Unit => TransformOutcome.value (some " \n\t ")) "vacio").cache = none :=
  c10_whitespace_is_empty none (fun _ => TransformOutcome.value (some " \n\t "))
    "vacio" () " \n\t " rfl rfl (by decide)

/-- Claim C2 divergence: on a payload whose `record.items` list is
present but holds no total/Overall item while `records` holds a
resolvable total record, the normalizer signals empty (shape (c) is
never tried, because the source joins shapes (b) and (c) with `else
if`); the second conjunct shows shape (c) would have resolved the very
same `records` list had it been reached. -/
theorem c2_flat_shape_order :
    processStandingsData (some bothFlatShapes) = StandingsResult.noData
    ∧ processStandingsData (some recordsOnlyShape)
        = StandingsResult.html
            "<p>Washington Commanders: 11V - 5D - 0E (Source: Summary String)</p>" := by
  decide

/-- Claim C4: on the standings input whose `record.items` holds the item
with type total and summary 11-5-1, the normalizer emits the line
11V - 5D - 1E for the fixed tracked-team name, with wins 11, losses 5
and ties 1 parsed from the summary string. -/
theorem c4_summary_total_record :
    processStandingsData (some summaryShape)
      = StandingsResult.html
          "<p>Washington Commanders: 11V - 5D - 1E (Source: Summary String)</p>"
    ∧ summaryMatch "11-5-1" = some (11, 5, 1) := by
  decide

/-- Claim C5 counterexample: a summary-less record whose stats array
holds exactly a wins entry with value zero.  The claim says the stats
path is accepted (a wins entry is present, even zero); the code instead
raises a TypeError inside `getStatValue` while looking up the absent
losses entry, so the record is neither rendered nor signalled empty. -/
theorem c5_counterexample :
    processStandingsData (some winsZeroOnlyShape) = StandingsResult.jsThrow
    ∧ processStandingsData (some winsZeroOnlyShape) ≠ StandingsResult.noData
    ∧ ∀ w l t : Int, processStandingsData (some winsZeroOnlyShape)
        ≠ StandingsResult.html (statsLine w l t) := by
  refine ⟨by decide, by decide, ?_⟩
  intro w l t h
  rw [show processStandingsData (some winsZeroOnlyShape) = StandingsResult.jsThrow
    from by decide] at h
  cases h

/-- Reduction of `processStandingsData` to the stats branch when a
record was selected, its summary is absent or unparsable, and a stats
array is present. -/
theorem processStandings_stats_path (d : StandingsData) (tr : RecordObj)
    (stats : List (Option Stat))
    (hsel : selectTeamRecord d = some tr)
    (hsum : summaryUsable tr = false)
    (hstats : tr.stats = some stats) :
    processStandingsData (some d) = statsBranch stats := by
  have hsp : summaryParsed tr = none := by
    cases h : summaryParsed tr with
    | none => rfl
    | some v => simp [summaryUsable, h] at hsum
  simp only [processStandingsData, hsel, hsp, hstats]

/-- Claim C5 as amended: for a selected record with no usable summary
and a present stats array, the stats fallback renders a line exactly
when all three of the wins/losses/ties lookups resolve AND the
acceptance condition (a positive value, or else an entry literally named
wins) evaluates to true; when the lookups resolve but the acceptance
condition is false the record is treated as unresolved (empty signal);
and when any lookup fails to find its entry — or the acceptance scan
hits a null stats element — the normalizer raises instead of signalling
empty. -/
theorem c5_stats_fallback_semantics (d : StandingsData) (tr : RecordObj)
    (stats : List (Option Stat))
    (hsel : selectTeamRecord d = some tr)
    (hsum : summaryUsable tr = false)
    (hstats : tr.stats = some stats) :
    (∀ w l t : Int,
        getStatValue stats "wins" = JsOutcome.ok w →
        getStatValue stats "losses" = JsOutcome.ok l →
        getStatValue stats "ties" = JsOutcome.ok t →
        statsAccept stats w l t = JsOutcome.ok true →
        processStandingsData (some d) = StandingsResult.html (statsLine w l t))
    ∧ (∀ w l t : Int,
        getStatValue stats "wins" = JsOutcome.ok w →
        getStatValue stats "losses" = JsOutcome.ok l →
        getStatValue stats "ties" = JsOutcome.ok t →
        statsAccept stats w l t = JsOutcome.ok false →
        processStandingsData (some d) = StandingsResult.noData)
    ∧ ((getStatValue stats "wins" = JsOutcome.jsThrow
          ∨ getStatValue stats "losses" = JsOutcome.jsThrow
          ∨ getStatValue stats "ties" = JsOutcome.jsThrow) →
        processStandingsData (some d) = StandingsResult.jsThrow)
    ∧ (∀ w l t : Int,
        getStatValue stats "wins" = JsOutcome.ok w →
        getStatValue stats "losses" = JsOutcome.ok l →
        getStatValue stats "ties" = JsOutcome.ok t →
        statsAccept stats w l t = JsOutcome.jsThrow →
        processStandingsData (some d) = StandingsResult.jsThrow) := by
  have hred := processStandings_stats_path d tr stats hsel hsum hstats
  refine ⟨?_, ?_, ?_, ?_⟩
  · intro w l t hw hl ht hacc
    rw [hred]
    simp only [statsBranch, hw, hl, ht, hacc]
  · intro w l t hw hl ht hacc
    rw [hred]
    simp only [statsBranch, hw, hl, ht, hacc]
  · intro hdisj
    rw [hred]
    rcases hdisj with hw | hl | ht
    · simp only [statsBranch, hw]
    · cases hw2 : getStatValue stats "wins" with
      | jsThrow => simp only [statsBranch, hw2]
      | ok w => simp only [statsBranch, hw2, hl]
    · cases hw2 : getStatValue stats "wins" with
      | jsThrow => simp only [statsBranch, hw2]
      | ok w =>
          cases hl2 : getStatValue stats "losses" with
          | jsThrow => simp only [statsBranch, hw2, hl2]
          | ok l => simp only [statsBranch, hw2, hl2, ht]
  · intro w l t hw hl ht hacc
    rw [hred]
    simp only [statsBranch, hw, hl, ht, hacc]

/-- Witness for C5 as amended: the complete stats array wins 7, losses
9, ties 0 is accepted and rendered through the stats source line. -/
theorem c5_stats_fallback_witness :
    processStandingsData (some statsShapeW7) = StandingsResult.html (statsLine 7 9 0) :=
  (c5_stats_fallback_semantics statsShapeW7 statsRecordW7 statsW7L9T0
      (by decide) (by decide) rfl).1 7 9 0 (by decide) (by decide) (by decide) (by decide)

/-- Claim C6: for an event with a located competition and both home and
away competitors with team identities, the emitted line carries the
score field, which equals homeScore - awayScore (each side defaulting to
0 when absent) exactly when the status indicates completion, and
otherwise equals the human status description when present and the
literal Pendiente when not. -/
theorem c6_event_score (fmt : String → Option String) (event : EventObj)
    (competition : Competition) (competitors : List (Option Competitor))
    (homeTeamData awayTeamData : Competitor) (homeTeam awayTeam : TeamInfo)
    (h1 : firstCompetition event = some competition)
    (h2 : competition.competitors = some competitors)
    (h3 : ¬ competitors.length < 2)
    (h4 : findSide competitors "home" = some homeTeamData)
    (h5 : findSide competitors "away" = some awayTeamData)
    (h6 : homeTeamData.team = some homeTeam)
    (h7 : awayTeamData.team = some awayTeam) :
    processEvent fmt (some event)
      = "<p>" ++ (formatTeamInfo awayTeam ++ (" @ " ++ (formatTeamInfo homeTeam
          ++ (" | Fecha: " ++ (eventDateStr fmt event ++ (" | Estado: "
            ++ (eventScore competition homeTeamData awayTeamData ++ "</p>")))))))
    ∧ (statusCompleted competition = true →
        eventScore competition homeTeamData awayTeamData
          = orDefault homeTeamData.score "0" ++ (" - " ++ orDefault awayTeamData.score "0"))
    ∧ (statusCompleted competition = false →
        eventScore competition homeTeamData awayTeamData
          = match statusDescription competition with
            | some d => d
            | none => "Pendiente") := by
  refine ⟨?_, ?_, ?_⟩
  · simp only [processEvent, h1, h2, h4, h5, h6, h7, if_neg h3]
  · intro hcomp
    unfold statusCompleted at hcomp
    cases hs : competition.status with
    | none => simp [hs] at hcomp
    | some st =>
        simp only [hs] at hcomp
        cases hty : st.type with
        | none => simp [hty] at hcomp
        | some ty =>
            simp only [hty] at hcomp
            simp only [eventScore, hs, hty, hcomp, if_true]
  · intro hcomp
    unfold statusCompleted at hcomp
    cases hs : competition.status with
    | none => simp only [eventScore, statusDescription, hs]
    | some st =>
        simp only [hs] at hcomp
        cases hty : st.type with
        | none => simp only [eventScore, statusDescription, hs, hty]
        | some ty =>
            simp only [hty] at hcomp
            cases hd : ty.description with
            | none =>
                simp [eventScore, statusDescription, hs, hty, hd, hcomp]
            | some dsc =>
                by_cases hde : dsc = ""
                · simp [eventScore, statusDescription, hs, hty, hd, hcomp, hde]
                · simp [eventScore, statusDescription, hs, hty, hd, hcomp, hde]

/-- Witness for C6: the concrete completed event renders with score
20 - 0 (missing away score defaulting to 0). -/
theorem c6_event_score_witness :
    processEvent noDateFmt (some finishedEvent)
      = "<p>" ++ (formatTeamInfo cowboysTeam ++ (" @ " ++ (formatTeamInfo commandersTeam
          ++ (" | Fecha: " ++ (eventDateStr noDateFmt finishedEvent ++ (" | Estado: "
            ++ (eventScore finishedCompetition homeCompetitor awayCompetitor ++ "</p>")))))))
    ∧ eventScore finishedCompetition homeCompetitor awayCompetitor = "20 - 0" := by
  have h := c6_event_score noDateFmt finishedEvent finishedCompetition
      [some homeCompetitor, some awayCompetitor] homeCompetitor awayCompetitor
      commandersTeam cowboysTeam rfl rfl (by decide) (by decide) (by decide) rfl rfl
  refine ⟨h.1, ?_⟩
  rw [h.2.1 (by decide)]
  decide

/-- Every line emitted for a valid event object opens with the angle
bracket of its paragraph tag. -/
theorem processEvent_head (fmt : String → Option String) (event : EventObj) :
    (processEvent fmt (some event)).data.head? = some '<' := by
  simp only [processEvent, fallbackCompetitionLine, fallbackTeamLine]
  repeat first
    | exact head_p_append _
    | split

/-- A valid event object is never dropped: its line is non-empty. -/
theorem processEvent_some_ne_empty (fmt : String → Option String) (event : EventObj) :
    processEvent fmt (some event) ≠ "" :=
  ne_empty_of_head (processEvent_head fmt event)

/-- The per-event pipeline keeps exactly one line per valid event
object: filtering out the empty strings of invalid entries leaves as
many lines as there are valid entries. -/
theorem events_filter_count (fmt : String → Option String) :
    ∀ evs : List (Option EventObj),
      ((evs.map (processEvent fmt)).filter (fun s => s ≠ "")).length
        = (evs.filter (fun e => e.isSome)).length := by
  intro evs
  induction evs with
  | nil => rfl
  | cons e es ih =>
      cases e with
      | none =>
          simp only [List.map_cons, List.filter_cons]
          simpa [processEvent] using ih
      | some ev =>
          simp only [List.map_cons, List.filter_cons]
          simpa [processEvent_some_ne_empty fmt ev] using ih

/-- Joining a non-empty list of strings that all open with an angle
bracket yields a string opening with an angle bracket. -/
theorem join_head_lt :
    ∀ L : List String, (∀ x ∈ L, x.data.head? = some '<') → L ≠ [] →
      (String.join L).data.head? = some '<'
  | [], _, h => absurd rfl h
  | x :: xs, hall, _ => by
      rw [join_cons, String.data_append, List.head?_append,
        hall x (List.mem_cons_self x xs)]
      rfl

/-- Claim C7: over a well-formed event list the normalizer emits exactly
one line per event, except for entries that are not valid objects, which
are dropped; a valid event is never dropped, and incomplete events
(missing competition, missing or too-short competitor list, missing
home/away competitor or team identity) degrade to one of the two minimal
fallback lines; when at least one valid entry exists the normalizer
returns exactly the joined kept lines. -/
theorem c7_per_event_lines (fmt : String → Option String) (d : EventsData)
    (evs : List (Option EventObj)) (hev : d.events = some evs) (hne : evs ≠ []) :
    ((evs.map (processEvent fmt)).filter (fun s => s ≠ "")).length
        = (evs.filter (fun e => e.isSome)).length
    ∧ processEvent fmt none = ""
    ∧ (∀ ev : EventObj, processEvent fmt (some ev) ≠ "")
    ∧ (∀ ev : EventObj, firstCompetition ev = none →
        processEvent fmt (some ev) = fallbackCompetitionLine fmt ev)
    ∧ (∀ (ev : EventObj) (comp : Competition),
        firstCompetition ev = some comp → comp.competitors = none →
        processEvent fmt (some ev) = fallbackCompetitionLine fmt ev)
    ∧ (∀ (ev : EventObj) (comp : Competition) (cs : List (Option Competitor)),
        firstCompetition ev = some comp → comp.competitors = some cs →
        cs.length < 2 →
        processEvent fmt (some ev) = fallbackCompetitionLine fmt ev)
    ∧ (∀ (ev : EventObj) (comp : Competition) (cs : List (Option Competitor)),
        firstCompetition ev = some comp → comp.competitors = some cs →
        ¬ cs.length < 2 →
        (findSide cs "home" = none ∨ findSide cs "away" = none
          ∨ (∃ hc, findSide cs "home" = some hc ∧ hc.team = none)
          ∨ (∃ ac, findSide cs "away" = some ac ∧ ac.team = none)) →
        processEvent fmt (some ev) = fallbackTeamLine fmt ev)
    ∧ ((evs.filter (fun e => e.isSome)).length ≠ 0 →
        processTeamEventsData fmt (some d)
          = some (String.join ((evs.map (processEvent fmt)).filter (fun s => s ≠ "")))) := by
  refine ⟨events_filter_count fmt evs, rfl, processEvent_some_ne_empty fmt, ?_, ?_, ?_, ?_, ?_⟩
  · intro ev h
    simp only [processEvent, h]
  · intro ev comp hcmp h
    simp only [processEvent, hcmp, h]
  · intro ev comp cs hcmp h hlt
    simp only [processEvent, hcmp, h, if_pos hlt]
  · intro ev comp cs hcmp h hge hcase
    simp only [processEvent, hcmp, h, if_neg hge]
    cases hh : findSide cs "home" with
    | none => rfl
    | some hc =>
        cases ha : findSide cs "away" with
        | none => rfl
        | some ac =>
            rcases hcase with hbad | hbad | ⟨c1, hc1, ht1⟩ | ⟨c1, hc1, ht1⟩
            · rw [hh] at hbad; cases hbad
            · rw [ha] at hbad; cases hbad
            · rw [hh] at hc1
              injection hc1 with e
              subst e
              simp only [ht1]
            · rw [ha] at hc1
              injection hc1 with e
              subst e
              simp only [ht1]
              cases hc.team <;> rfl
  · intro hcount
    cases evs with
    | nil => exact absurd rfl hne
    | cons e es =>
        simp only [processTeamEventsData, hev]
        have hlen := events_filter_count fmt (e :: es)
        have hLne : ((e :: es).map (processEvent fmt)).filter (fun s => s ≠ "") ≠ [] := by
          intro h0
          rw [h0] at hlen
          exact hcount hlen.symm
        have hall : ∀ x ∈ ((e :: es).map (processEvent fmt)).filter (fun s => s ≠ ""),
            x.data.head? = some '<' := by
          intro x hx
          have hx1 := List.mem_filter.mp hx
          rcases List.mem_map.mp hx1.1 with ⟨ev, _, hevx⟩
          cases ev with
          | none =>
              exfalso
              have hx2 := hx1.2
              rw [← hevx] at hx2
              simp [processEvent] at hx2
          | some e2 => rw [← hevx]; exact processEvent_head fmt e2
        have hhead := join_head_lt _ hall hLne
        rw [if_neg (jsTrim_ne_empty_of_head hhead)]

/-- Witness for C7: a two-entry list holding one valid event and one
invalid entry keeps exactly one line, and the normalizer returns the
joined kept lines. -/
theorem c7_per_event_lines_witness :
    (([some finishedEvent, none].map (processEvent noDateFmt)).filter
        (fun s => s ≠ "")).length
      = ([some finishedEvent, none].filter (fun e => e.isSome)).length
    ∧ processTeamEventsData noDateFmt (some { events := some [some finishedEvent, none] })
        = some (String.join (([some finishedEvent, none].map (processEvent noDateFmt)).filter
            (fun s => s ≠ ""))) := by
  have h := c7_per_event_lines noDateFmt { events := some [some finishedEvent, none] }
      [some finishedEvent, none] rfl (by decide)
  exact ⟨h.1, h.2.2.2.2.2.2.2 (by decide)⟩

/-- Claim C8: every podcast item lacking a playable source URL is
excluded from the output (its fragment is the empty string, no fallback
rendering), and when every item of a non-empty list lacks a source URL
the normalizer output is classified as empty by the engine, which then
renders the configured empty message with no error state and nothing
written to the cache. -/
theorem c8_podcasts_sourceless (cached : Option String) (emptyDataMessage : String)
    (d : PodcastsData) (ps : List Podcast)
    (hc : jsTruthyStr cached = false)
    (hp : d.podcasts = some ps) (hne : ps ≠ [])
    (hall : ∀ p ∈ ps, orDefault p.src "" = "") :
    (∀ p ∈ ps, podcastItemHtml p = "")
    ∧ processPodcasts (some d) = some ""
    ∧ (fetchDataAndDisplay cached (NetworkOutcome.ok (some d))
        (fun x => TransformOutcome.value (processPodcasts x)) emptyDataMessage).content
        = "<p>" ++ emptyDataMessage ++ "</p>"
    ∧ (fetchDataAndDisplay cached (NetworkOutcome.ok (some d))
        (fun x => TransformOutcome.value (processPodcasts x)) emptyDataMessage).errorShown
        = none
    ∧ (fetchDataAndDisplay cached (NetworkOutcome.ok (some d))
        (fun x => TransformOutcome.value (processPodcasts x)) emptyDataMessage).cache
        = cached := by
  have hitem : ∀ p ∈ ps, podcastItemHtml p = "" := by
    intro p hmem
    simp [podcastItemHtml, hall p hmem]
  have hjoin : processPodcasts (some d) = some "" := by
    cases ps with
    | nil => exact absurd rfl hne
    | cons p rest =>
        simp only [processPodcasts, hp]
        refine congrArg some (join_all_empty _ ?_)
        intro x hx
        rcases List.mem_map.mp hx with ⟨q, hq, hqx⟩
        rw [← hqx]
        exact hitem q hq
  refine ⟨hitem, hjoin, ?_, ?_, ?_⟩ <;>
    · simp only [fetchDataAndDisplay, hc, Bool.false_eq_true, if_false, hjoin]
      simp [jsTruthyStr]

/-- Witness for C8: the one-item source-less podcast list ends on the
empty message. -/
theorem c8_podcasts_sourceless_witness :
    processPodcasts (some srclessPodcastsData) = some ""
    ∧ (fetchDataAndDisplay (none : Option String)
        (NetworkOutcome.ok (some srclessPodcastsData))
        (fun x => TransformOutcome.value (processPodcasts x)) "sin podcasts").content
        = "<p>" ++ "sin podcasts" ++ "</p>" := by
  have h := c8_podcasts_sourceless none "sin podcasts" srclessPodcastsData
      [srclessPodcast] rfl rfl (by decide) (by decide)
  exact ⟨h.2.1, h.2.2.1⟩

end CommandersHub
